import Mathlib

/-!
# Verification of `clemitui` core (text_buffer.rs, format.rs)

Shallow embedding conventions:

* A Rust `String`/`&str` is modelled as `List Char` (Unicode scalar values);
  `str.len()` (a UTF-8 *byte* count in Rust) is `utf8Len`; byte slicing
  `&s[..k]` is `takeBytes s k`, which is `none` exactly when Rust would panic
  (index `k` not on a character boundary or out of range).
* `serde_json::Value` is `Json` below; numbers are restricted to integers
  (`Int`), matching serde's `i64`/`u64` display; `serde_json::Map` (a
  `BTreeMap` ordered by byte-lexicographic key order, which coincides with
  codepoint-lexicographic order under UTF-8) is an association list carried in
  that sorted order.
* Fallible computation (Rust panics) is `Option`: `none` is a panic.
* Colored output: the spec's contracts are on plain-text content and the
  tests run with `colored::control::set_override(false)`, under which the
  `colored` crate's `.cyan()` etc. are identity on content; they are the
  identity here.
* `Duration::as_secs_f32` arithmetic is modelled exactly over the duration's
  nanosecond count (`f32` rounding of the quotient is not modelled; the
  decimal formatting `{:.N}` is round-half-to-even on the exact value, as
  Rust's formatting is on the float's exact value).
-/

/-- UTF-8 byte length of a string, Rust's `str::len`. -/
def utf8Len (s : List Char) : Nat :=
  (s.map Char.utf8Size).sum

/-- Rust byte-slice `&s[..k]`: the characters making up the first `k` bytes,
or `none` (panic) when `k` is out of range or not a character boundary. -/
def takeBytes : List Char → Nat → Option (List Char)
  | _, 0 => some []
  | [], _ + 1 => none
  | c :: cs, k + 1 =>
    if c.utf8Size ≤ k + 1 then
      (takeBytes cs (k + 1 - c.utf8Size)).map (fun p => c :: p)
    else
      none

/-- Rust `str::trim_end_matches('\n')`: drop all trailing newline chars. -/
def trimEndNewlines (s : List Char) : List Char :=
  (s.reverse.dropWhile (fun c => c = '\n')).reverse

/-!
## `src/text_buffer.rs`: `TextBuffer`

The markdown renderer (`render_markdown`, a thin wrapper over the external
`termimad` crate) and terminal-width detection are external capabilities;
`flush` takes them as parameters `render` and `termWidth`. `flush` mutates
the buffer, so it is embedded as state passing: it returns the optional
rendered block together with the updated buffer.
-/

/-- The streaming text buffer of `text_buffer.rs`: accumulated text plus an
optional fixed width (`None` = auto-detect at flush time). -/
structure TextBuffer where
  text : List Char
  width : Option Nat
  deriving DecidableEq, Repr

namespace TextBuffer

/-- Constructor `TextBuffer::new()`: empty buffer, auto-detected width. -/
def new : TextBuffer :=
  { text := [], width := none }

/-- Constructor `TextBuffer::with_width(width)`: empty buffer with a fixed width;
panics (`none`) when `width` is 0, per `assert!(width > 0)`. -/
def with_width (width : Nat) : Option TextBuffer :=
  if width > 0 then some { text := [], width := some width } else none

/-- Method `TextBuffer::push(&mut self, text)`: append text. -/
def push (b : TextBuffer) (t : List Char) : TextBuffer :=
  { b with text := b.text ++ t }

/-- Method `TextBuffer::is_empty(&self)`. -/
def is_empty (b : TextBuffer) : Bool :=
  b.text = []

/-- Method `TextBuffer::flush(&mut self)`, parametrized by the external markdown
render capability and the detected terminal width (`detect_terminal_width`'s
result, already including its 120-column fallback). Returns the optional
output and the updated buffer. -/
def flush (render : List Char → Nat → List Char) (termWidth : Nat)
    (b : TextBuffer) : Option (List Char) × TextBuffer :=
  if b.text = [] then
    (none, b)
  else
    let text := b.text
    let b' : TextBuffer := { b with text := [] }
    let width := b.width.getD termWidth
    let rendered := render text width
    let trimmed := trimEndNewlines rendered
    if trimmed = [] then
      (none, b')
    else
      (some (trimmed ++ "\n\n".data), b')

end TextBuffer

/-!
## `src/format.rs`: JSON values and serialization

`serde_json::Value` with integer numbers. An `obj` carries the association
list of a `BTreeMap<String, Value>` in its iteration order (strictly sorted
by key); theorems that rely on the map invariant take it as a hypothesis.
-/

/-- The `serde_json::Value` type (numbers restricted to integers). -/
inductive Json where
  | null
  | bool (b : Bool)
  | num (n : Int)
  | str (s : List Char)
  | arr (elems : List Json)
  | obj (entries : List (List Char × Json))

/-- Whether `args.as_object()` succeeds: true exactly on `obj`. -/
def Json.isObject : Json → Bool
  | .obj _ => true
  | _ => false

/-- The strict key order of `serde_json::Map` (`BTreeMap<String, _>`):
byte-lexicographic, which for UTF-8 is codepoint-lexicographic. -/
def keyLt (a b : List Char) : Prop :=
  List.Lex (· < ·) a b

/-- Decimal digits of a natural number, Rust's `u64` display. -/
def natRepr (n : Nat) : List Char :=
  Nat.toDigits 10 n

/-- Rust integer display (`i64`/`u64` `Display`). -/
def intRepr : Int → List Char
  | .ofNat n => natRepr n
  | .negSucc n => '-' :: natRepr (n + 1)

/-- Lowercase hex digit, serde_json's `HEX_DIGITS` table. -/
def hexDigit (n : Nat) : Char :=
  if n < 10 then Char.ofNat (48 + n) else Char.ofNat (87 + n)

/-- serde_json's string escaping: `"` and `\` are backslash-escaped, the
named control characters use their short escapes, other control characters
use `\u00xx`, everything else (including non-ASCII) is passed through. -/
def escapeChar (c : Char) : List Char :=
  if c = '\"' then ['\\', '\"']
  else if c = '\\' then ['\\', '\\']
  else if c = Char.ofNat 8 then ['\\', 'b']
  else if c = '\t' then ['\\', 't']
  else if c = '\n' then ['\\', 'n']
  else if c = Char.ofNat 12 then ['\\', 'f']
  else if c = Char.ofNat 13 then ['\\', 'r']
  else if c.toNat < 32 then
    ['\\', 'u', '0', '0', hexDigit (c.toNat / 16), hexDigit (c.toNat % 16)]
  else [c]

/-- A JSON string literal: escaped content wrapped in double quotes. -/
def jsonQuote (s : List Char) : List Char :=
  '\"' :: (s.map escapeChar).flatten ++ ['\"']

mutual

/-- serde_json's compact serialization, `Value::to_string()`. -/
def serialize : Json → List Char
  | .null => "null".data
  | .bool true => "true".data
  | .bool false => "false".data
  | .num n => intRepr n
  | .str s => jsonQuote s
  | .arr xs => '[' :: serializeArr xs ++ [']']
  | .obj kvs => '{' :: serializeObj kvs ++ ['}']

/-- Comma-separated serialization of array elements. -/
def serializeArr : List Json → List Char
  | [] => []
  | [x] => serialize x
  | x :: y :: rest => serialize x ++ ',' :: serializeArr (y :: rest)

/-- Comma-separated serialization of object entries. -/
def serializeObj : List (List Char × Json) → List Char
  | [] => []
  | [(k, v)] => jsonQuote k ++ ':' :: serialize v
  | (k, v) :: e :: rest => jsonQuote k ++ ':' :: serialize v ++ ',' :: serializeObj (e :: rest)

end

/-- Function `estimate_tokens` (format.rs): UTF-8 byte length of the canonical JSON
serialization, divided by `CHARS_PER_TOKEN = 4` (truncating), cast to `u32`. -/
def estimate_tokens (value : Json) : Nat :=
  (utf8Len (serialize value) / 4) % 2 ^ 32

/-!
## `src/format.rs`: `format_tool_args`

The per-tool filter, string rendering with newline collapse and byte-index
truncation (`&trimmed[..MAX_ARG_DISPLAY_LEN - 3]`, which panics off a char
boundary, hence `Option`), and part assembly.
-/

/-- Constant `MAX_ARG_DISPLAY_LEN` (format.rs). -/
def MAX_ARG_DISPLAY_LEN : Nat := 80

/-- The three inline `continue` filters of `format_tool_args`, as a
predicate on `(tool_name, key)`. -/
def argFilter (tool k : List Char) : Bool :=
  (tool == "edit".data && (k == "old_string".data || k == "new_string".data))
    || (tool == "todo_write".data && k == "todos".data)
    || (tool == "ask_user".data && (k == "question".data || k == "options".data))

/-- Rust `s.replace('\n', " ")` (each replaced character is one space). -/
def collapseNewlines (s : List Char) : List Char :=
  s.map (fun c => if c == '\n' then ' ' else c)

/-- The `Value::String` arm of `format_tool_args`: replace newlines by
spaces, then if the byte length exceeds 80 take the first 77 bytes and
append `...`; wrapped in double quotes. `none` is the byte-slice panic. -/
def renderStringArg (s : List Char) : Option (List Char) :=
  let trimmed := collapseNewlines s
  if utf8Len trimmed > MAX_ARG_DISPLAY_LEN then
    (takeBytes trimmed (MAX_ARG_DISPLAY_LEN - 3)).map
      (fun p => '\"' :: p ++ "...\"".data)
  else
    some ('\"' :: trimmed ++ ['\"'])

/-- The `val_str` match of `format_tool_args`: string/number/bool/null are
rendered, composites collapse to `...`. -/
def renderValue : Json → Option (List Char)
  | .str s => renderStringArg s
  | .num n => some (intRepr n)
  | .bool b => some (if b then "true".data else "false".data)
  | .null => some "null".data
  | .arr _ => some "...".data
  | .obj _ => some "...".data

/-- The entry loop of `format_tool_args`: skip filtered keys, render the
rest as `key=value` parts in iteration order. -/
def collectParts (tool : List Char) : List (List Char × Json) → Option (List (List Char))
  | [] => some []
  | (k, v) :: rest =>
    if argFilter tool k then
      collectParts tool rest
    else
      match renderValue v with
      | none => none
      | some valStr =>
        match collectParts tool rest with
        | none => none
        | some tail => some ((k ++ '=' :: valStr) :: tail)

/-- Rust `parts.join(" ")`. -/
def joinSpace : List (List Char) → List Char
  | [] => []
  | [p] => p
  | p :: q :: rest => p ++ ' ' :: joinSpace (q :: rest)

/-- Function `format_tool_args` (format.rs). `none` is a panic (the byte-slice
truncation off a character boundary); every non-panicking run yields
`some` string. -/
def format_tool_args (tool_name : List Char) (args : Json) : Option (List Char) :=
  match args with
  | .obj kvs =>
    (collectParts tool_name kvs).map (fun parts =>
      if parts.isEmpty then [] else joinSpace parts ++ [' '])
  | _ => some []

/-!
## `src/format.rs`: `format_tool_result`

Colors are identity on content (see header). A `Duration` is its total
nanosecond count; `as_secs_f32() < 0.001` is `nanos < 10^6`, and `{:.N}`
formatting is round-half-to-even at `N` decimal places of the exact value
`nanos / 10^9`.
-/

/-- Format `nanos / 10^9` seconds with `d` decimal places (`d ≤ 9`),
rounding half to even, zero-padding the fractional digits. -/
def fmtSecs (nanos d : Nat) : List Char :=
  let p := 10 ^ (9 - d)
  let q := nanos / p
  let r := nanos % p
  let rounded := if 2 * r > p || (2 * r == p && q % 2 == 1) then q + 1 else q
  let fracDigits := natRepr (rounded % 10 ^ d)
  natRepr (rounded / 10 ^ d)
    ++ '.' :: (List.replicate (d - fracDigits.length) '0' ++ fracDigits)

/-- Function `format_tool_result` (format.rs): `└─ {name} {duration_str} ~{tokens} tok`
plus `" ERROR"` when `has_error`. -/
def format_tool_result (name : List Char) (durationNanos : Nat)
    (estimatedTokens : Nat) (has_error : Bool) : List Char :=
  let errorSuffix := if has_error then " ERROR".data else []
  let durationStr :=
    (if durationNanos < 1000000 then fmtSecs durationNanos 3
     else fmtSecs durationNanos 2) ++ ['s']
  "└─ ".data ++ name ++ ' ' :: durationStr ++ " ~".data
    ++ natRepr estimatedTokens ++ " tok".data ++ errorSuffix

-- Sanity checks on the embedding (concrete evaluations).
example : utf8Len "aé".data = 3 := by decide
example : takeBytes "aé".data 1 = some ['a'] := by decide
example : takeBytes "aé".data 2 = none := by decide
example : trimEndNewlines "ab\n\n".data = "ab".data := by decide
example :
    (TextBuffer.new.push "hi\n".data).flush (fun t _ => t) 120
      = (some "hi\n\n".data, TextBuffer.new) := by decide
example : serialize (.str "hello".data) = "\"hello\"".data := by decide
example : estimate_tokens (.str "hello".data) = 1 := by decide
example :
    estimate_tokens (.obj [("key".data, .str "value".data)]) = 3 := by decide
example :
    format_tool_args "test".data
        (.obj [("bool".data, .bool true), ("null".data, .null),
               ("num".data, .num 42), ("str".data, .str "hello".data)])
      = some "bool=true null=null num=42 str=\"hello\" ".data := by decide
example :
    format_tool_args "test".data
        (.obj [("arr".data, .arr [.num 1, .num 2]),
               ("obj".data, .obj [("a".data, .num 1)])])
      = some "arr=... obj=... ".data := by decide
example :
    format_tool_args "test".data (.obj [("text".data, .str "hello\nworld".data)])
      = some "text=\"hello world\" ".data := by decide
example : format_tool_args "test".data (.obj []) = some [] := by decide
example : format_tool_args "test".data .null = some [] := by decide
example :
    format_tool_result "test".data 100000 10 false
      = "└─ test 0.000s ~10 tok".data := by decide
example :
    format_tool_result "test".data 20000000 10 false
      = "└─ test 0.02s ~10 tok".data := by decide
example :
    format_tool_result "test".data 1450000000 10 false
      = "└─ test 1.45s ~10 tok".data := by decide
example :
    format_tool_result "test".data 10000000 25 true
      = "└─ test 0.01s ~25 tok ERROR".data := by decide
example :
    renderStringArg (List.replicate 80 'a')
      = some ('\"' :: List.replicate 80 'a' ++ ['\"']) := by decide
example :
    renderStringArg (List.replicate 81 'a')
      = some ('\"' :: List.replicate 77 'a' ++ "...\"".data) := by decide
example :
    renderStringArg (List.replicate 76 'a' ++ "ééé".data) = none := by decide

/-!
## Helper lemmas
-/

/-- The head surviving a `dropWhile` falsifies the predicate. -/
lemma head?_dropWhile_not {α : Type} {p : α → Bool} :
    ∀ (l : List α) (a : α), (l.dropWhile p).head? = some a → p a = false := by
  intro l
  induction l with
  | nil => intro a h; simp [List.dropWhile] at h
  | cons hd tl ih =>
    intro a h
    by_cases hp : p hd = true
    · rw [List.dropWhile_cons, if_pos hp] at h
      exact ih a h
    · rw [List.dropWhile_cons, if_neg hp] at h
      simp only [List.head?_cons, Option.some.injEq] at h
      subst h
      exact Bool.not_eq_true _ ▸ eq_false_of_ne_true hp

/-- The last character left after trimming trailing newlines is not a
newline. -/
lemma getLast?_trimEndNewlines {s : List Char} {c : Char}
    (h : (trimEndNewlines s).getLast? = some c) : ¬ c = '\n' := by
  unfold trimEndNewlines at h
  set l := s.reverse.dropWhile (fun c => c = '\n') with hl
  have hhead : l.reverse.getLast? = l.head? := by
    cases l with
    | nil => rfl
    | cons a as =>
      rw [List.reverse_cons, List.getLast?_append_cons]
      rfl
  rw [hhead] at h
  have := head?_dropWhile_not (p := fun c => decide (c = '\n')) s.reverse c h
  simpa using this

/-- A list whose last element is not `a` followed by `[a, a]` does not end
in `[a, a, a]`. -/
lemma not_triple_suffix {α : Type} {t : List α} {a : α}
    (ht : ¬ t.getLast? = some a) :
    ¬ [a, a, a] <:+ t ++ [a, a] := by
  rintro ⟨u, hu⟩
  have h' : (u ++ [a]) ++ [a, a] = t ++ [a, a] := by
    simpa [List.append_assoc] using hu
  have h2 : u ++ [a] = t := List.append_cancel_right h'
  apply ht
  rw [← h2, List.getLast?_append_cons]
  rfl

/-- What a non-empty buffer's flush computes, unfolded. -/
lemma flush_eq (render : List Char → Nat → List Char) (termWidth : Nat)
    (b : TextBuffer) (hb : ¬ b.text = []) :
    b.flush render termWidth
      = (if trimEndNewlines (render b.text (b.width.getD termWidth)) = [] then
           (none, { b with text := [] })
         else
           (some (trimEndNewlines (render b.text (b.width.getD termWidth)) ++ "\n\n".data),
            { b with text := [] })) := by
  simp [TextBuffer.flush, hb]

/-!
## Claim theorems: `TextBuffer`
-/

/-- C1: for every buffer whose accumulated text, after markdown rendering at
the resolved width and stripping of all trailing newlines, is non-empty,
`flush()` returns the stripped text plus `"\n\n"`: the result ends with
exactly two trailing newline characters, never more, never fewer, for every
rendered form. -/
theorem flush_exactly_two_trailing_newlines
    (render : List Char → Nat → List Char) (termWidth : Nat) (b : TextBuffer)
    (hb : ¬ b.text = [])
    (h : ¬ trimEndNewlines (render b.text (b.width.getD termWidth)) = []) :
    (b.flush render termWidth).fst
        = some (trimEndNewlines (render b.text (b.width.getD termWidth)) ++ "\n\n".data)
      ∧ "\n\n".data <:+ trimEndNewlines (render b.text (b.width.getD termWidth)) ++ "\n\n".data
      ∧ ¬ "\n\n\n".data <:+ trimEndNewlines (render b.text (b.width.getD termWidth)) ++ "\n\n".data := by
  refine ⟨?_, ⟨trimEndNewlines (render b.text (b.width.getD termWidth)), rfl⟩, ?_⟩
  · rw [flush_eq render termWidth b hb, if_neg h]
  · have hlast : ¬ (trimEndNewlines (render b.text (b.width.getD termWidth))).getLast? = some '\n' := by
      intro hc
      exact getLast?_trimEndNewlines hc rfl
    exact not_triple_suffix hlast

/-- Witness for C1 at a concrete buffer and identity renderer. -/
theorem flush_exactly_two_trailing_newlines_witness :
    ((TextBuffer.mk "hi\n".data (some 80)).flush (fun t _ => t) 120).fst
        = some (trimEndNewlines "hi\n".data ++ "\n\n".data)
      ∧ "\n\n".data <:+ trimEndNewlines "hi\n".data ++ "\n\n".data
      ∧ ¬ "\n\n\n".data <:+ trimEndNewlines "hi\n".data ++ "\n\n".data :=
  flush_exactly_two_trailing_newlines (fun t _ => t) 120
    (TextBuffer.mk "hi\n".data (some 80)) (by decide) (by decide)

/-- C5: immediately after construction (either constructor) and immediately
after every call to `flush()` — whatever flush returned — the buffer's
pending text is empty. -/
theorem pending_text_empty_invariant :
    TextBuffer.new.is_empty = true
    ∧ (∀ (w : Nat) (b : TextBuffer), TextBuffer.with_width w = some b → b.is_empty = true)
    ∧ (∀ (render : List Char → Nat → List Char) (termWidth : Nat) (b : TextBuffer),
        ((b.flush render termWidth).snd).is_empty = true) := by
  refine ⟨rfl, ?_, ?_⟩
  · intro w b h
    unfold TextBuffer.with_width at h
    split at h
    · cases h
      rfl
    · cases h
  · intro render termWidth b
    by_cases hb : b.text = []
    · simp [TextBuffer.flush, hb, TextBuffer.is_empty]
    · rw [flush_eq render termWidth b hb]
      split <;> simp [TextBuffer.is_empty]

/-- Witness for C5 at width 80 and at a concrete flushed buffer. -/
theorem pending_text_empty_invariant_witness :
    TextBuffer.is_empty ⟨[], some 80⟩ = true
    ∧ (((TextBuffer.mk "x".data none).flush (fun t _ => t) 120).snd).is_empty = true := by
  exact ⟨pending_text_empty_invariant.2.1 80 ⟨[], some 80⟩ (by decide),
    pending_text_empty_invariant.2.2 (fun t _ => t) 120 (TextBuffer.mk "x".data none)⟩

/-- C6: `flush()` returns `None` exactly when the buffer is empty (and then
with no side effect at all: the buffer is returned unchanged) or when the
rendered text strips to nothing; in every other case it returns `Some`. -/
theorem flush_none_iff
    (render : List Char → Nat → List Char) (termWidth : Nat) (b : TextBuffer) :
    ((b.flush render termWidth).fst = none
        ↔ (b.text = [] ∨ trimEndNewlines (render b.text (b.width.getD termWidth)) = []))
      ∧ (b.text = [] → b.flush render termWidth = (none, b)) := by
  constructor
  · by_cases hb : b.text = []
    · simp [TextBuffer.flush, hb]
    · rw [flush_eq render termWidth b hb]
      by_cases ht : trimEndNewlines (render b.text (b.width.getD termWidth)) = []
      · simp [ht, hb]
      · simp [ht, hb]
  · intro hb
    simp [TextBuffer.flush, hb]

/-- Witness for C6: empty buffer, whitespace-only buffer, and a buffer with
content, with the identity renderer. -/
theorem flush_none_iff_witness :
    (TextBuffer.new.flush (fun t _ => t) 120).fst = none
    ∧ TextBuffer.new.flush (fun t _ => t) 120 = (none, TextBuffer.new)
    ∧ ((TextBuffer.mk "\n\n".data (some 120)).flush (fun t _ => t) 120).fst = none := by
  refine ⟨(flush_none_iff (fun t _ => t) 120 TextBuffer.new).1.mpr (Or.inl rfl),
    (flush_none_iff (fun t _ => t) 120 TextBuffer.new).2 rfl,
    (flush_none_iff (fun t _ => t) 120 (TextBuffer.mk "\n\n".data (some 120))).1.mpr
      (Or.inr (by decide))⟩

/-- C9: constructing a fixed-width buffer with width 0 fails at construction
time (it is not clamped to a default), every positive width yields an empty
buffer carrying exactly that width, and the default constructor is the
infallible empty auto-width buffer. -/
theorem with_width_zero_rejected :
    TextBuffer.with_width 0 = none
    ∧ (∀ w : Nat, 0 < w → TextBuffer.with_width w = some { text := [], width := some w })
    ∧ (∀ (w : Nat) (b : TextBuffer),
        TextBuffer.with_width w = some b → b.is_empty = true ∧ b.width = some w ∧ 0 < w)
    ∧ TextBuffer.new = { text := [], width := none } := by
  refine ⟨rfl, ?_, ?_, rfl⟩
  · intro w hw
    simp [TextBuffer.with_width, hw]
  · intro w b h
    unfold TextBuffer.with_width at h
    split at h
    · cases h
      exact ⟨rfl, rfl, by assumption⟩
    · cases h

/-- Witness for C9 at width 80. -/
theorem with_width_zero_rejected_witness :
    TextBuffer.with_width 80 = some { text := [], width := some 80 } :=
  with_width_zero_rejected.2.1 80 (by decide)

/-!
## Claim theorems: `format_tool_args`
-/

/-- A successful byte-slice `takeBytes l k` yields exactly `k` bytes. -/
lemma takeBytes_utf8Len :
    ∀ (l : List Char) (k : Nat) (p : List Char),
      takeBytes l k = some p → utf8Len p = k := by
  intro l
  induction l with
  | nil =>
    intro k p h
    cases k with
    | zero =>
      simp only [takeBytes, Option.some.injEq] at h
      subst h
      rfl
    | succ n => simp [takeBytes] at h
  | cons c cs ih =>
    intro k p h
    cases k with
    | zero =>
      simp only [takeBytes, Option.some.injEq] at h
      subst h
      rfl
    | succ n =>
      simp only [takeBytes] at h
      split at h
      · rename_i hle
        cases hmap : takeBytes cs (n + 1 - c.utf8Size) with
        | none => rw [hmap] at h; simp at h
        | some q =>
          rw [hmap] at h
          simp at h
          subst h
          have hq := ih (n + 1 - c.utf8Size) q hmap
          simp only [utf8Len, List.map_cons, List.sum_cons]
          rw [show (q.map Char.utf8Size).sum = utf8Len q from rfl, hq]
          omega
      · simp at h

/-- C2 (code bug record): `format_tool_args` is not total — with a string
argument whose newline-collapsed form is 82 bytes long and whose 77th byte
falls inside a multi-byte character, the byte-index truncation
`&trimmed[..77]` panics. -/
theorem format_tool_args_multibyte_panic :
    format_tool_args "read".data
        (.obj [("content".data, .str (List.replicate 76 'a' ++ "ééé".data))])
      = none := by decide

/-- C3 counterexample: a string argument of 41 characters (one ASCII, forty
two-byte) is 81 UTF-8 bytes after newline collapse, so the code truncates it
even though its character length is at most 80 — the claim's exact character
boundary does not hold. -/
theorem truncation_char_boundary_counterexample :
    ('a' :: List.replicate 40 'é').length ≤ 80
      ∧ format_tool_args "read".data
            (.obj [("s".data, .str ('a' :: List.replicate 40 'é'))])
          = some ("s=\"".data ++ ('a' :: List.replicate 38 'é') ++ "...\" ".data)
      ∧ ¬ format_tool_args "read".data
            (.obj [("s".data, .str ('a' :: List.replicate 40 'é'))])
          = some ("s=\"".data ++ ('a' :: List.replicate 40 'é') ++ "\" ".data) := by
  refine ⟨by decide, by decide, by decide⟩

/-- C3 as amended: lengths are UTF-8 byte lengths. A string argument value
has its newlines replaced by spaces; if the resulting byte length is at most
80 it is rendered unmodified in double quotes, and if it is 81 or more the
code takes the first 77 bytes (panicking when byte 77 is not a character
boundary) and appends `...` inside the quotes, for a quoted payload of
exactly 80 bytes. -/
theorem truncation_boundary_bytes (s : List Char) :
    (utf8Len (collapseNewlines s) ≤ 80 →
        renderStringArg s = some ('\"' :: collapseNewlines s ++ ['\"']))
      ∧ (80 < utf8Len (collapseNewlines s) →
          renderStringArg s
            = (takeBytes (collapseNewlines s) 77).map
                (fun p => '\"' :: p ++ "...\"".data))
      ∧ (∀ p, takeBytes (collapseNewlines s) 77 = some p →
          utf8Len p = 77 ∧ utf8Len (p ++ "...".data) = 80) := by
  refine ⟨?_, ?_, ?_⟩
  · intro h
    have hnot : ¬ utf8Len (collapseNewlines s) > MAX_ARG_DISPLAY_LEN := by
      simpa [MAX_ARG_DISPLAY_LEN] using h
    simp [renderStringArg, hnot]
  · intro h
    have hgt : utf8Len (collapseNewlines s) > MAX_ARG_DISPLAY_LEN := by
      simpa [MAX_ARG_DISPLAY_LEN] using h
    simp [renderStringArg, hgt]
    rfl
  · intro p hp
    have h77 := takeBytes_utf8Len (collapseNewlines s) 77 p hp
    constructor
    · exact h77
    · simp only [utf8Len, List.map_append, List.sum_append] at h77 ⊢
      rw [show ((p.map Char.utf8Size).sum) = utf8Len p from rfl] at *
      rw [h77]
      rfl

/-- Witness for C3's amended theorem: a short string is rendered unmodified,
an 81-byte ASCII string is truncated to its first 77 bytes. -/
theorem truncation_boundary_bytes_witness :
    renderStringArg "abc".data = some ('\"' :: collapseNewlines "abc".data ++ ['\"'])
      ∧ renderStringArg (List.replicate 81 'a')
          = (takeBytes (collapseNewlines (List.replicate 81 'a')) 77).map
              (fun p => '\"' :: p ++ "...\"".data) :=
  ⟨(truncation_boundary_bytes "abc".data).1 (by decide),
   (truncation_boundary_bytes (List.replicate 81 'a')).2.1 (by decide)⟩

/-- C4: `format_tool_args` suppresses exactly the statically filtered
`(tool, key)` pairs — whatever values those keys carry, removing them from
the entry list does not change the output — and the `edit` example yields
exactly `file_path="a.txt" `. -/
theorem filter_table_suppression :
    (∀ (tool : List Char) (kvs : List (List Char × Json)),
        collectParts tool kvs
          = collectParts tool (kvs.filter (fun kv => !argFilter tool kv.1)))
      ∧ (∀ (tool k : List Char), argFilter tool k = true ↔
            ((tool = "edit".data ∧ (k = "old_string".data ∨ k = "new_string".data))
              ∨ (tool = "todo_write".data ∧ k = "todos".data)
              ∨ (tool = "ask_user".data ∧ (k = "question".data ∨ k = "options".data))))
      ∧ (∀ v w : Json, format_tool_args "edit".data
            (.obj [("file_path".data, .str "a.txt".data),
                   ("new_string".data, v), ("old_string".data, w)])
          = some "file_path=\"a.txt\" ".data)
      ∧ (∀ v : Json, format_tool_args "todo_write".data (.obj [("todos".data, v)])
          = some [])
      ∧ (∀ v w : Json, format_tool_args "ask_user".data
            (.obj [("options".data, v), ("question".data, w)])
          = some []) := by
  refine ⟨?_, ?_, fun v w => rfl, fun v => rfl, fun v w => rfl⟩
  · intro tool kvs
    induction kvs with
    | nil => rfl
    | cons kv rest ih =>
      obtain ⟨k, v⟩ := kv
      by_cases hf : argFilter tool k = true
      · simp [collectParts, List.filter_cons, hf, ih]
      · simp only [Bool.not_eq_true] at hf
        simp [collectParts, List.filter_cons, hf, ih]
  · intro tool k
    simp only [argFilter, Bool.or_eq_true, Bool.and_eq_true, beq_iff_eq]
    tauto

/-- Witness for C4 at concrete suppressed values. -/
theorem filter_table_suppression_witness :
    format_tool_args "edit".data
        (.obj [("file_path".data, .str "a.txt".data),
               ("new_string".data, .str "new content".data),
               ("old_string".data, .str "old content".data)])
      = some "file_path=\"a.txt\" ".data :=
  filter_table_suppression.2.2.1 (.str "new content".data) (.str "old content".data)

/-- C7: output assembly of `format_tool_args`: a non-object argument value
gives the empty string; entries are traversed in the (sorted) map order,
which filtering preserves; surviving entries render as `key=value` with
numbers, booleans, `null` and composites as specified; no surviving part
gives the empty string, and otherwise the parts are joined by single spaces
with exactly one trailing space. -/
theorem format_tool_args_assembly :
    (∀ (tool : List Char) (args : Json),
        args.isObject = false → format_tool_args tool args = some [])
      ∧ (∀ (tool : List Char) (kvs : List (List Char × Json)) (parts : List (List Char)),
          collectParts tool kvs = some parts →
            List.Forall₂
              (fun kv part => ∃ valStr, renderValue kv.2 = some valStr
                ∧ part = kv.1 ++ '=' :: valStr)
              (kvs.filter (fun kv => !argFilter tool kv.1)) parts)
      ∧ (∀ (tool : List Char) (kvs : List (List Char × Json)),
          List.Pairwise (fun a b => keyLt a.1 b.1) kvs →
            List.Pairwise (fun a b => keyLt a.1 b.1)
              (kvs.filter (fun kv => !argFilter tool kv.1)))
      ∧ (∀ n : Int, renderValue (.num n) = some (intRepr n))
      ∧ (∀ b : Bool, renderValue (.bool b)
          = some (if b then "true".data else "false".data))
      ∧ renderValue .null = some "null".data
      ∧ (∀ xs : List Json, renderValue (.arr xs) = some "...".data)
      ∧ (∀ kvs : List (List Char × Json), renderValue (.obj kvs) = some "...".data)
      ∧ (∀ p : List Char, joinSpace [p] = p)
      ∧ (∀ (p q : List Char) (r : List (List Char)),
          joinSpace (p :: q :: r) = p ++ ' ' :: joinSpace (q :: r))
      ∧ (∀ (tool : List Char) (kvs : List (List Char × Json)),
          collectParts tool kvs = some [] → format_tool_args tool (.obj kvs) = some [])
      ∧ (∀ (tool : List Char) (kvs : List (List Char × Json)) (parts : List (List Char)),
          collectParts tool kvs = some parts → ¬ parts = [] →
            format_tool_args tool (.obj kvs) = some (joinSpace parts ++ [' '])) := by
  refine ⟨?_, ?_, ?_, fun n => rfl, fun b => rfl, rfl, fun xs => rfl, fun kvs => rfl,
    fun p => rfl, fun p q r => rfl, ?_, ?_⟩
  · intro tool args h
    cases args <;> first | rfl | simp [Json.isObject] at h
  · intro tool kvs
    induction kvs with
    | nil =>
      intro parts h
      simp only [collectParts, Option.some.injEq] at h
      subst h
      exact List.Forall₂.nil
    | cons kv rest ih =>
      obtain ⟨k, v⟩ := kv
      intro parts h
      by_cases hf : argFilter tool k = true
      · rw [show collectParts tool ((k, v) :: rest) = collectParts tool rest by
          simp [collectParts, hf]] at h
        simpa [List.filter_cons, hf] using ih parts h
      · simp only [Bool.not_eq_true] at hf
        simp only [collectParts, hf, Bool.false_eq_true, if_false] at h
        cases hv : renderValue v with
        | none => rw [hv] at h; cases h
        | some valStr =>
          rw [hv] at h
          cases hcp : collectParts tool rest with
          | none => rw [hcp] at h; cases h
          | some tail =>
            rw [hcp] at h
            simp only [Option.some.injEq] at h
            subst h
            rw [List.filter_cons]
            simp only [hf, Bool.not_false, if_true]
            exact List.Forall₂.cons ⟨valStr, hv, rfl⟩ (ih tail hcp)
  · intro tool kvs h
    exact h.sublist (List.filter_sublist _)
  · intro tool kvs h
    simp [format_tool_args, h]
  · intro tool kvs parts h hne
    cases parts with
    | nil => exact absurd rfl hne
    | cons p ps => simp [format_tool_args, h, List.isEmpty]

/-- Witness for C7: a non-object argument, and a concrete assembled
two-entry object. -/
theorem format_tool_args_assembly_witness :
    format_tool_args "bash".data (.str "ls".data) = some []
      ∧ format_tool_args "bash".data
          (.obj [("cmd".data, .str "ls".data), ("n".data, .num 2)])
        = some (joinSpace ["cmd=\"ls\"".data, "n=2".data] ++ [' ']) :=
  ⟨format_tool_args_assembly.1 "bash".data (.str "ls".data) rfl,
   format_tool_args_assembly.2.2.2.2.2.2.2.2.2.2.2 "bash".data
     [("cmd".data, .str "ls".data), ("n".data, .num 2)]
     ["cmd=\"ls\"".data, "n=2".data] (by decide) (by decide)⟩

/-!
## Claim theorems: `format_tool_result` and `estimate_tokens`
-/

/-- The result line always ends in `k` (of `tok`) or `R` (of `ERROR`). -/
lemma format_tool_result_getLast? (name : List Char) (nanos tokens : Nat) (e : Bool) :
    (format_tool_result name nanos tokens e).getLast?
      = some (if e then 'R' else 'k') := by
  cases e
  · simp only [format_tool_result, Bool.false_eq_true, if_false, List.append_nil,
      ← List.append_assoc]
    rw [List.getLast?_append_of_ne_nil _ (by decide)]
    rfl
  · simp only [format_tool_result, if_true, ← List.append_assoc]
    rw [List.getLast?_append_of_ne_nil _ (by decide)]
    rfl

/-- C8: `format_tool_result` produces the plain-text line
`└─ {name} {duration_str} ~{tokens} tok`, with the literal `" ERROR"`
appended exactly when `has_error` is true, no trailing newline ever, and a
duration rendered with 3 decimal places below one millisecond and 2
otherwise (100 microseconds, 20 milliseconds and 1450 milliseconds render
as the spec's examples). -/
theorem format_tool_result_content :
    (∀ (name : List Char) (nanos tokens : Nat) (hasError : Bool),
        format_tool_result name nanos tokens hasError
          = "└─ ".data ++ name
              ++ ' ' :: ((if nanos < 1000000 then fmtSecs nanos 3 else fmtSecs nanos 2) ++ ['s'])
              ++ " ~".data ++ natRepr tokens ++ " tok".data
              ++ (if hasError then " ERROR".data else []))
      ∧ (∀ (name : List Char) (nanos tokens : Nat),
          format_tool_result name nanos tokens true
            = format_tool_result name nanos tokens false ++ " ERROR".data)
      ∧ (∀ (name : List Char) (nanos tokens : Nat) (hasError : Bool),
          ¬ (format_tool_result name nanos tokens hasError).getLast? = some '\n')
      ∧ format_tool_result "test".data 100000 10 false = "└─ test 0.000s ~10 tok".data
      ∧ format_tool_result "test".data 20000000 10 false = "└─ test 0.02s ~10 tok".data
      ∧ format_tool_result "test".data 1450000000 10 false = "└─ test 1.45s ~10 tok".data := by
  refine ⟨fun name nanos tokens hasError => rfl, ?_, ?_, by decide, by decide, by decide⟩
  · intro name nanos tokens
    simp [format_tool_result, List.append_assoc]
  · intro name nanos tokens hasError
    rw [format_tool_result_getLast?]
    cases hasError <;> decide

/-- Witness for C8: the error line for a concrete input has no trailing
newline. -/
theorem format_tool_result_content_witness :
    ¬ (format_tool_result "bash".data 250000000 100 true).getLast? = some '\n' :=
  format_tool_result_content.2.2.1 "bash".data 250000000 100 true

/-- C10 counterexample: on the string value `"ééé"` the serialization is 5
characters but 8 UTF-8 bytes, so the code's estimate (2) differs from the
claim's character-count estimate (1). -/
theorem estimate_tokens_char_count_counterexample :
    estimate_tokens (.str "ééé".data) = 2
      ∧ (serialize (.str "ééé".data)).length = 5
      ∧ utf8Len (serialize (.str "ééé".data)) = 8
      ∧ ¬ estimate_tokens (.str "ééé".data)
          = (serialize (.str "ééé".data)).length / 4 := by
  exact ⟨by decide, by decide, by decide, by decide⟩

/-- C10 as amended: `estimate_tokens(v)` is the UTF-8 byte count of `v`'s
canonical JSON serialization divided by 4, truncated toward zero (and
reduced by the `u32` cast, which is the identity below `2^34` bytes); the
spec's examples: `"hello"` gives 1, and the empty string, empty array and
empty object give 0. -/
theorem estimate_tokens_byte_count :
    (∀ v : Json, estimate_tokens v = utf8Len (serialize v) / 4 % 2 ^ 32)
      ∧ (∀ v : Json, utf8Len (serialize v) < 4 * 2 ^ 32 →
          estimate_tokens v = utf8Len (serialize v) / 4)
      ∧ estimate_tokens (.str "hello".data) = 1
      ∧ estimate_tokens (.str []) = 0
      ∧ estimate_tokens (.arr []) = 0
      ∧ estimate_tokens (.obj []) = 0 := by
  refine ⟨fun v => rfl, ?_, by decide, by decide, by decide, by decide⟩
  · intro v h
    have hlt : utf8Len (serialize v) / 4 < 2 ^ 32 := by
      apply Nat.div_lt_of_lt_mul
      omega
    exact Nat.mod_eq_of_lt hlt

/-- Witness for C10's amended theorem at the null value (serialization
`null`, 4 bytes, 1 token). -/
theorem estimate_tokens_byte_count_witness :
    estimate_tokens .null = utf8Len (serialize .null) / 4 :=
  estimate_tokens_byte_count.2.1 .null (by decide)
